import Mathlib

/-
Shallow embedding of src/server.js (Exercise-Tracker).

The program is an Express + Mongoose HTTP service over a single `User`
collection with embedded `Exercise` subdocuments.  We model:

  * JavaScript `Date` values as integers counting milliseconds since the
    epoch; `Date.prototype.toDateString` truncates a timestamp to its
    calendar day, modelled by floor-division with `msPerDay` (`dayOf`).
    Query dates (`from`, `to`) parse to the first instant of their day, so
    they are modelled directly as day numbers.
  * the Mongo collection as a `List User` in natural (insertion) order;
    `findOne` / `findById` return the first match, and
    `findByIdAndUpdate` updates the first matching document atomically and
    (with the `new: true` option of the source) returns the updated document.
  * thrown/forwarded JS errors as a `JsError` record carrying the three
    fields the error middleware inspects (`errors`, `status`, `message`);
    handlers return `Except JsError _` where the source does
    `try/catch + next(err)` or would throw a `TypeError`.
  * fresh shortids and the server clock (`new Date()`) as explicit
    parameters of the handlers.
-/

namespace ExTracker

/-- Milliseconds per calendar day; a JS `Date` is an epoch-millisecond count. -/
def msPerDay : Int := 86400000

/-- Model of `Date.prototype.toDateString`: keeps only the calendar day of a timestamp:
modelled as the day number (floor division, matching local-midnight truncation). -/
def dayOf (t : Int) : Int := t.fdiv msPerDay

/-- Schema `exerciseSchema` (src/server.js lines 34-42): `_id` (shortid string),
required `description` (string), `duration` (number), `date` (Date). -/
structure Exercise where
  _id : String
  description : String
  duration : Int
  date : Int
deriving DecidableEq, Repr

/-- Schema `userSchema` (src/server.js lines 43-51): `_id` (shortid string), required
`name`, `count` defaulting to 0, and the embedded `exercises` array. -/
structure User where
  _id : String
  name : String
  count : Int
  exercises : List Exercise
deriving DecidableEq, Repr

/-- The `User` collection in natural storage order. -/
abbrev DB := List User

/-- The shape of a JS error as inspected by the error middleware
(src/server.js lines 64-82): an optional mongoose validation-`errors`
collection (its messages in key order), an optional attached `status`,
and an optional `message`. -/
structure JsError where
  errors : Option (List String) := none
  status : Option Nat := none
  message : Option String := none
deriving DecidableEq, Repr

/-- JS `a || b` on an optional number: `0` (and absence) is falsy. -/
def jsOrNat (v : Option Nat) (d : Nat) : Nat :=
  match v with
  | some n => if n ≠ 0 then n else d
  | none => d

/-- JS `a || b` on an optional string: the empty string (and absence) is falsy. -/
def jsOrStr (v : Option String) (d : String) : String :=
  match v with
  | some s => if s ≠ "" then s else d
  | none => d

/-- A plain-text HTTP response as produced by the error middleware:
`res.status(errCode).type("txt").send(errMessage)`. -/
structure TxtResp where
  status : Nat
  body : String
  ctype : String
deriving DecidableEq, Repr

/-- Error-handling middleware (src/server.js lines 64-82).  A mongoose
validation error (an `errors` collection) maps to 400 with the first
validation failure's message; otherwise `err.status || 500` and
`err.message || "Internal Server Error"`.  (A mongoose validation error
always carries at least one entry; on an impossible empty collection the
source itself would throw, so the `headD` default is never exercised and
all theorems below assume a nonempty collection.) -/
def errorMiddleware (e : JsError) : TxtResp :=
  match e.errors with
  | some msgs => { status := 400, body := msgs.headD "", ctype := "txt" }
  | none =>
      { status := jsOrNat e.status 500
        body := jsOrStr e.message "Internal Server Error"
        ctype := "txt" }

/-- The `TypeError` raised when the source dereferences a `null` user
(`user.name` in `addExerciseHandler`, `user.toObject()` in `getUserHandler`):
no `errors` collection, no attached `status`.  (The two V8 messages differ
only in the property name; apostrophes elided.) -/
def typeErrorNull : JsError :=
  { message := some "Cannot read properties of null" }

/-- The `RangeError` raised by `userClone.log.length = limit` for a negative
`limit` (V8: invalid array length). -/
def rangeErrorInvalidLength : JsError :=
  { message := some "Invalid array length" }

/-- The mongoose required-path validation error raised by `newUser.save()`
when `name` is missing or empty. -/
def nameRequiredError : JsError :=
  { errors := some ["Path `name` is required."] }

/-- Body of the 200 response for an existing user, `{_id, username, count}`
(src/server.js lines 90-94), or of the 201 response for a fresh user,
`{username, _id}` (line 101). -/
inductive CreateUserBody where
  | found (_id : String) (username : String) (count : Int)
  | created (username : String) (_id : String)
deriving DecidableEq, Repr

/-- Handler `createUserHandler` (src/server.js lines 87-105).  `User.findOne({name})`
scans in natural order; if a user with that exact name exists the handler
answers 200 with the existing record and stores nothing; otherwise it saves
`new User({name})` — `count` defaults to 0 and `exercises` to `[]` — and
answers 201.  `save()` rejects with a validation error when the required
`name` is missing/empty.  `freshId` stands for the generated shortid. -/
def createUserHandler (db : DB) (username : String) (freshId : String) :
    DB × Except JsError (Nat × CreateUserBody) :=
  match db.find? (fun u => u.name == username) with
  | some u => (db, .ok (200, .found u._id u.name u.count))
  | none =>
      if username = "" then
        (db, .error nameRequiredError)
      else
        (db ++ [{ _id := freshId, name := username, count := 0, exercises := [] }],
         .ok (201, .created username freshId))

/-- Append one exercise and bump the denormalized `count`: the single atomic
`$push`/`$inc` update of `findByIdAndUpdate` (src/server.js lines 117-124). -/
def pushExercise (ex : Exercise) (u : User) : User :=
  { u with exercises := u.exercises ++ [ex], count := u.count + 1 }

/-- Model of `User.findByIdAndUpdate(id, update, {new: true})`: update the first
document whose `_id` matches, atomically, and return the updated document;
if none matches the collection is unchanged and `null` is returned. -/
def findByIdAndUpdate (uid : String) (f : User → User) : DB → DB × Option User
  | [] => ([], none)
  | u :: rest =>
      if u._id == uid then (f u :: rest, some (f u))
      else
        let r := findByIdAndUpdate uid f rest
        (u :: r.1, r.2)

/-- Request body of POST /api/users/:_id/exercises: `description`, `duration`,
optional `date` (a timestamp when supplied). -/
structure AddBody where
  description : String
  duration : Int
  date : Option Int
deriving DecidableEq, Repr

/-- Body of the 201 response of `addExerciseHandler` (src/server.js
lines 126-132): exactly `{username, description, duration, _id, date}`,
with `date` rendered by `toDateString` (a day, not a full timestamp). -/
structure ExerciseResp where
  username : String
  description : String
  duration : Int
  _id : String
  date : Int
deriving DecidableEq, Repr

/-- Handler `addExerciseHandler` (src/server.js lines 110-136).  Builds the exercise
with `date` defaulted to `new Date()` (`now`), performs the atomic
`$push`+`$inc` update, and answers 201 from the updated user.  When no user
has the given id, `findByIdAndUpdate` returns `null` and `user.name` raises
a `TypeError`, forwarded via `next(err)`. -/
def addExerciseHandler (db : DB) (uid : String) (body : AddBody) (now : Int)
    (freshEid : String) : DB × Except JsError (Nat × ExerciseResp) :=
  let ex : Exercise :=
    { _id := freshEid, description := body.description, duration := body.duration,
      date := body.date.getD now }
  let r := findByIdAndUpdate uid (pushExercise ex) db
  (r.1,
   match r.2 with
   | some u =>
       .ok (201, { username := u.name, description := ex.description,
                   duration := ex.duration, _id := u._id, date := dayOf ex.date })
   | none => .error typeErrorNull)

/-- One entry of the `log` array (src/server.js lines 156-160):
`{description, duration, date}` with `date` a `toDateString` day. -/
structure LogEntry where
  description : String
  duration : Int
  date : Int
deriving DecidableEq, Repr

/-- Entry rendering `userClone.log = userClone.exercises.map(...)` (src/server.js
lines 156-160). -/
def renderEntry (e : Exercise) : LogEntry :=
  { description := e.description, duration := e.duration, date := dayOf e.date }

/-- The date-range filter predicate (src/server.js lines 164-169): drop an
entry when `from` is given and the entry's (day-truncated) date is strictly
before it, or `to` is given and the date is strictly after it. -/
def keepEntry (fromQ toQ : Option Int) (e : LogEntry) : Bool :=
  (match fromQ with
   | some f => !(decide (e.date < f))
   | none => true) &&
  (match toQ with
   | some t => !(decide (e.date > t))
   | none => true)

/-- The mapped-then-filtered log before the limit step: the filter runs only
under `if (from || to)` (src/server.js line 163), which is equivalent to
always filtering since the predicate is vacuous when both are absent. -/
def filteredLog (es : List Exercise) (fromQ toQ : Option Int) : List LogEntry :=
  if fromQ.isSome || toQ.isSome then (es.map renderEntry).filter (keepEntry fromQ toQ)
  else es.map renderEntry

/-- Body of the 200 response of `getUserHandler` (src/server.js
lines 178-183): `{_id, username, count, log}` where `count` recomputes
`userClone.exercises.length` and `log` is `undefined` (omitted from the
JSON) when the exercises array is empty, because the whole map/filter/limit
block is guarded by `if (userClone.exercises && userClone.exercises.length)`. -/
structure LogResp where
  _id : String
  username : String
  count : Nat
  log : Option (List LogEntry)
deriving DecidableEq, Repr

/-- The `log` field computation of `getUserHandler` (src/server.js
lines 154-176), i.e. the block guarded by
`if (userClone.exercises && userClone.exercises.length)`: on an empty
exercises array `userClone.log` stays `undefined` (`none`); otherwise the
entries are mapped, filtered by the date bounds, and truncated by
`userClone.log.length = limit`, which runs only when
`limit && limit < userClone.log.length` (JS truthiness: `0` and `NaN` are
falsy) and throws a `RangeError` for a negative `limit`.
`limitQ` models `query.limit ? parseInt(query.limit) : null`: outer `none`
= query absent, `some none` = present but parsing to `NaN`, `some (some l)`
= parsing to the number `l`. -/
def logPart (es : List Exercise) (fromQ toQ : Option Int)
    (limitQ : Option (Option Int)) : Except JsError (Option (List LogEntry)) :=
  if es.isEmpty then .ok none
  else
    let log1 := filteredLog es fromQ toQ
    match limitQ with
    | some (some l) =>
        if l ≠ 0 ∧ l < (log1.length : Int) then
          if l < 0 then .error rangeErrorInvalidLength
          else .ok (some (log1.take l.toNat))
        else .ok (some log1)
    | _ => .ok (some log1)

/-- Handler `getUserHandler` (src/server.js lines 141-187).  A missing user makes
`user.toObject()` raise a `TypeError`; otherwise the single
`res.status(200).json(...)` (lines 178-183) answers with
`count: userClone.exercises.length` — always the unfiltered total — and the
conditionally-built `log`. -/
def getUserHandler (db : DB) (uid : String) (fromQ toQ : Option Int)
    (limitQ : Option (Option Int)) : Except JsError (Nat × LogResp) :=
  match db.find? (fun u => u._id == uid) with
  | none => .error typeErrorNull
  | some u =>
      match logPart u.exercises fromQ toQ limitQ with
      | .error e => .error e
      | .ok lg =>
          .ok (200, { _id := u._id, username := u.name,
                      count := u.exercises.length, log := lg })

/-- One element of the GET /api/users response (src/server.js lines 195-198):
exactly `{_id, username}` — no `count`, no `exercises`. -/
structure UserSummary where
  _id : String
  username : String
deriving DecidableEq, Repr

/-- Handler `getAllUsersHandlers` (src/server.js lines 192-202): 200 with every
stored user projected to `{_id, username}`, in natural storage order. -/
def getAllUsersHandlers (db : DB) : Nat × List UserSummary :=
  (200, db.map fun u => { _id := u._id, username := u.name })

/-- One exercise-addition call against the service: its request body, the
server clock at call time, and the shortid generated for the exercise. -/
structure AddCtx where
  body : AddBody
  now : Int
  eid : String
deriving DecidableEq, Repr

/-- The exercise document one call constructs (src/server.js lines 111-115). -/
def exOf (c : AddCtx) : Exercise :=
  { _id := c.eid, description := c.body.description, duration := c.body.duration,
    date := c.body.date.getD c.now }

/-- Run a sequence of exercise-addition calls against one user id, threading
the database state. -/
def runAdds (uid : String) : DB → List AddCtx → DB
  | db, [] => db
  | db, c :: cs => runAdds uid (addExerciseHandler db uid c.body c.now c.eid).1 cs

/-- Database states reachable through the two mutating endpoints
(POST /api/users and POST /api/users/:_id/exercises), starting empty. -/
inductive Reachable : DB → Prop
  | nil : Reachable []
  | create (db : DB) (n fid : String) :
      Reachable db → Reachable (createUserHandler db n fid).1
  | add (db : DB) (uid : String) (body : AddBody) (now : Int) (eid : String) :
      Reachable db → Reachable (addExerciseHandler db uid body now eid).1

/-- The denormalized-count invariant of the data model: every stored user's
`count` equals the length of its embedded `exercises` sequence. -/
def countInv (db : DB) : Prop :=
  ∀ u ∈ db, u.count = (u.exercises.length : Int)

/-- The spec-side log computation of §4.3, written from the spec's words for
comparison with `getUserHandler`: map each exercise to
`{description, duration, day}`, keep the entries within the inclusive
`[from, to]` bounds (each bound applied only when present), then, when a
limit is present and smaller than the filtered length, truncate to the
first `limit` entries. -/
def withinBounds (fromQ toQ : Option Int) (e : LogEntry) : Bool :=
  (match fromQ with
   | some f => decide (f ≤ e.date)
   | none => true) &&
  (match toQ with
   | some t => decide (e.date ≤ t)
   | none => true)

/-- Spec-side §4.3 log: filter by the inclusive bounds, then truncate to the
first `l` entries when a limit `l` is present and smaller than the filtered
length. -/
def specLog (es : List Exercise) (fromQ toQ : Option Int) (lim : Option Nat) :
    List LogEntry :=
  let filtered := (es.map renderEntry).filter (withinBounds fromQ toQ)
  match lim with
  | some l => if l < filtered.length then filtered.take l else filtered
  | none => filtered

/-- The `limitQ` encoding of a numeric `limit` query value given as a
natural number (§4.3 declares `limit` a positive integer). -/
def natLimit (lim : Option Nat) : Option (Option Int) :=
  lim.map fun l => some (Int.ofNat l)

/-- Day numbers (days since the epoch) of the dates used in the spec's
worked example. -/
def dJan01 : Int := 19723

def dJan10 : Int := 19732

def dJan15 : Int := 19737

def dJan31 : Int := 19753

def dFeb01 : Int := 19754

/-- Demo exercises dated 2024-01-01, 2024-01-15 and 2024-02-01 (timestamps
at local midnight of those days), as in the spec's §8 example. -/
def exJan01 : Exercise :=
  { _id := "e1", description := "run", duration := 30, date := dJan01 * msPerDay }

def exJan15 : Exercise :=
  { _id := "e2", description := "swim", duration := 45, date := dJan15 * msPerDay }

def exFeb01 : Exercise :=
  { _id := "e3", description := "lift", duration := 20, date := dFeb01 * msPerDay }

/-- A stored user holding the three demo exercises. -/
def demoUser : User :=
  { _id := "u1", name := "alice", count := 3, exercises := [exJan01, exJan15, exFeb01] }

/-- A one-user demo database. -/
def demoDb : DB := [demoUser]

/-- A user with no exercises yet. -/
def emptyUser : User := { _id := "u2", name := "bob", count := 0, exercises := [] }

/-- A demo request body for POST /api/users/:_id/exercises. -/
def demoBody : AddBody := { description := "row", duration := 15, date := none }

end ExTracker

namespace ExTracker

section Helpers

variable {α : Type}

/-- Lemma: `find?` over an append whose left part has no match. -/
theorem find?_append_of_none {p : α → Bool} {l₁ l₂ : List α}
    (h : l₁.find? p = none) : (l₁ ++ l₂).find? p = l₂.find? p := by
  induction l₁ with
  | nil => rfl
  | cons a l ih =>
      rw [List.find?_cons] at h
      rw [List.cons_append, List.find?_cons]
      cases hp : p a with
      | true => simp [hp] at h
      | false =>
          simp only [hp] at h ⊢
          exact ih h

/-- Lemma: `findByIdAndUpdate` on a collection holding no matching document leaves
it unchanged and returns `null`. -/
theorem findByIdAndUpdate_not_found (uid : String) (f : User → User) (db : DB)
    (h : db.find? (fun x => x._id == uid) = none) :
    findByIdAndUpdate uid f db = (db, none) := by
  induction db with
  | nil => rfl
  | cons u rest ih =>
      rw [List.find?_cons] at h
      cases hu : u._id == uid with
      | true => simp [hu] at h
      | false =>
          simp only [hu] at h
          simp [findByIdAndUpdate, hu, ih h]

/-- Lemma: `findByIdAndUpdate` on a collection whose first matching document is `u`
returns the updated document, and the updated collection's first matching
document is the updated one (provided the update preserves `_id`). -/
theorem findByIdAndUpdate_found (uid : String) (f : User → User) (db : DB)
    (u : User) (hid : (f u)._id = u._id)
    (h : db.find? (fun x => x._id == uid) = some u) :
    (findByIdAndUpdate uid f db).2 = some (f u) ∧
    (findByIdAndUpdate uid f db).1.find? (fun x => x._id == uid) = some (f u) := by
  induction db with
  | nil => simp [List.find?] at h
  | cons v rest ih =>
      rw [List.find?_cons] at h
      cases hv : v._id == uid with
      | true =>
          simp only [hv] at h
          have huv : v = u := by injection h
          subst huv
          refine ⟨by simp [findByIdAndUpdate, hv], ?_⟩
          have hfv : ((f v)._id == uid) = true := by rw [hid]; exact hv
          simp [findByIdAndUpdate, hv, List.find?_cons, hfv]
      | false =>
          simp only [hv] at h
          have hr := ih h
          constructor
          · simp [findByIdAndUpdate, hv, hr.1]
          · simp [findByIdAndUpdate, hv, List.find?_cons, hr.2]

/-- Lemma: `addExerciseHandler` spelled out through `findByIdAndUpdate` and `exOf`. -/
theorem addExerciseHandler_eq (db : DB) (uid : String) (body : AddBody)
    (now : Int) (eid : String) :
    addExerciseHandler db uid body now eid =
      ((findByIdAndUpdate uid (pushExercise (exOf ⟨body, now, eid⟩)) db).1,
       match (findByIdAndUpdate uid (pushExercise (exOf ⟨body, now, eid⟩)) db).2 with
       | some u =>
           .ok (201, { username := u.name, description := body.description,
                       duration := body.duration, _id := u._id,
                       date := dayOf (body.date.getD now) })
       | none => .error typeErrorNull) := rfl

/-- When `findByIdAndUpdate` matches nothing, the collection is returned
unchanged. -/
theorem findByIdAndUpdate_none_eq (uid : String) (f : User → User) (db : DB)
    (h : (findByIdAndUpdate uid f db).2 = none) :
    (findByIdAndUpdate uid f db).1 = db := by
  induction db with
  | nil => rfl
  | cons u rest ih =>
      cases hv : u._id == uid with
      | true => simp [findByIdAndUpdate, hv] at h
      | false =>
          simp only [findByIdAndUpdate, hv] at h ⊢
          simp only [Bool.false_eq_true, if_false] at h ⊢
          simpa using ih h

/-- The atomic push-and-increment update preserves the count invariant. -/
theorem countInv_findByIdAndUpdate (uid : String) (ex : Exercise) (db : DB)
    (h : countInv db) :
    countInv (findByIdAndUpdate uid (pushExercise ex) db).1 := by
  induction db with
  | nil => exact h
  | cons u rest ih =>
      have hu := h u (List.mem_cons_self u rest)
      have hrest : countInv rest := fun v hv => h v (List.mem_cons_of_mem _ hv)
      cases hv : u._id == uid with
      | true =>
          have heq : (findByIdAndUpdate uid (pushExercise ex) (u :: rest)).1
              = pushExercise ex u :: rest := by simp [findByIdAndUpdate, hv]
          rw [heq]
          intro v hv'
          rcases List.mem_cons.mp hv' with h1 | h2
          · subst h1
            simp only [pushExercise, List.length_append, List.length_cons,
              List.length_nil]
            push_cast
            omega
          · exact hrest v h2
      | false =>
          have heq : (findByIdAndUpdate uid (pushExercise ex) (u :: rest)).1
              = u :: (findByIdAndUpdate uid (pushExercise ex) rest).1 := by
            simp [findByIdAndUpdate, hv]
          rw [heq]
          intro v hv'
          rcases List.mem_cons.mp hv' with h1 | h2
          · subst h1; exact hu
          · exact ih hrest v h2

/-- Every database state reachable through the handlers satisfies the count
invariant. -/
theorem countInv_reachable (db : DB) (h : Reachable db) : countInv db := by
  induction h with
  | nil => intro u hu; simp at hu
  | create db n fid hr ih =>
      cases hfind : db.find? (fun u => u.name == n) with
      | some u =>
          intro v hv
          simp only [createUserHandler, hfind] at hv
          exact ih v hv
      | none =>
          intro v hv
          by_cases hn : n = ""
          · subst hn
            simp [createUserHandler, hfind] at hv
            exact ih v hv
          · simp [createUserHandler, hfind, hn] at hv
            rcases hv with h1 | rfl
            · exact ih v h1
            · simp
  | add db uid body now eid hr ih =>
      exact countInv_findByIdAndUpdate uid (exOf ⟨body, now, eid⟩) db ih

/-- Running a list of addition calls against a user present in the store
appends exactly those calls' exercises, in call order, and bumps `count` by
their number. -/
theorem runAdds_sem (uid : String) (cs : List AddCtx) (db : DB) (u : User)
    (h : db.find? (fun x => x._id == uid) = some u) :
    (runAdds uid db cs).find? (fun x => x._id == uid) =
      some { u with exercises := u.exercises ++ cs.map exOf,
                    count := u.count + cs.length } := by
  induction cs generalizing db u with
  | nil => simpa using h
  | cons c cs ih =>
      have hstep := findByIdAndUpdate_found uid (pushExercise (exOf c)) db u rfl h
      have hfind : (addExerciseHandler db uid c.body c.now c.eid).1.find?
          (fun x => x._id == uid) = some (pushExercise (exOf c) u) := hstep.2
      have h2 := ih _ _ hfind
      rw [runAdds, h2]
      simp only [Option.some.injEq, pushExercise, List.map_cons, List.length_cons,
        User.mk.injEq, List.append_assoc, List.singleton_append]
      refine ⟨trivial, trivial, ?_, trivial⟩
      omega

/-- Boolean form of the strict/inclusive duality used by the filter. -/
theorem not_decide_lt (a b : Int) : (!decide (a < b)) = decide (b ≤ a) := by
  rcases lt_or_ge a b with h | h
  · rw [decide_eq_true h, decide_eq_false (not_le.mpr h)]
    rfl
  · rw [decide_eq_false (not_lt.mpr h), decide_eq_true h]
    rfl

/-- The source's drop-when-strictly-outside filter is exactly the
keep-when-inside-the-inclusive-bounds filter of the spec. -/
theorem keepEntry_eq (fromQ toQ : Option Int) (e : LogEntry) :
    keepEntry fromQ toQ e = withinBounds fromQ toQ e := by
  unfold keepEntry withinBounds
  rcases fromQ with _ | f <;> rcases toQ with _ | t <;>
    simp only [not_decide_lt]

/-- The conditionally-applied filter of the source equals the spec's
unconditional inclusive filter (the predicate is vacuous when both bounds
are absent). -/
theorem filteredLog_eq (es : List Exercise) (fromQ toQ : Option Int) :
    filteredLog es fromQ toQ =
      (es.map renderEntry).filter (withinBounds fromQ toQ) := by
  unfold filteredLog
  split
  · exact List.filter_congr (fun e _ => keepEntry_eq fromQ toQ e)
  · next h =>
      have hf : fromQ = none ∧ toQ = none := by
        rcases fromQ with _ | f <;> rcases toQ with _ | t <;> simp at h ⊢
      rcases hf with ⟨rfl, rfl⟩
      symm
      rw [List.filter_eq_self]
      intro e _
      simp [withinBounds]

/-- For a nonempty exercise list and a positive-when-present limit (the
input domain §4.3 declares for `limit`), the source's log computation
equals the spec-side `specLog`. -/
theorem logPart_eq_specLog (es : List Exercise) (fromQ toQ : Option Int)
    (lim : Option Nat) (hne : es ≠ [])
    (hpos : ∀ l, lim = some l → 0 < l) :
    logPart es fromQ toQ (natLimit lim) =
      .ok (some (specLog es fromQ toQ lim)) := by
  have hne' : es.isEmpty = false := by
    cases es with
    | nil => exact absurd rfl hne
    | cons a l => rfl
  unfold logPart specLog natLimit
  rw [filteredLog_eq]
  rcases lim with _ | l
  · simp [hne']
  · have hl := hpos l rfl
    simp only [Option.map_some', hne', Bool.false_eq_true, if_false]
    by_cases hlt : l < ((es.map renderEntry).filter (withinBounds fromQ toQ)).length
    · have hc : (Int.ofNat l ≠ 0 ∧
          Int.ofNat l < ((((es.map renderEntry).filter (withinBounds fromQ toQ)).length : Nat) : Int)) := by
        constructor
        · simp [Int.ofNat_eq_natCast]
          omega
        · simp [Int.ofNat_eq_natCast]
          omega
      rw [if_pos hc, if_neg (by simp [Int.ofNat_eq_natCast]), if_pos hlt]
      simp [Int.ofNat_eq_natCast]
    · have hc : ¬(Int.ofNat l ≠ 0 ∧
          Int.ofNat l < ((((es.map renderEntry).filter (withinBounds fromQ toQ)).length : Nat) : Int)) := by
        rintro ⟨-, h2⟩
        refine hlt ?_
        simp [Int.ofNat_eq_natCast] at h2
        exact_mod_cast h2
      rw [if_neg hc, if_neg hlt]

/-- Shape of every successful logs response: status 200, the user's own id
and name, `count` the unfiltered total, and the `log` produced by
`logPart`. -/
theorem getUserHandler_ok (db : DB) (uid : String) (fromQ toQ : Option Int)
    (limitQ : Option (Option Int)) (u : User) (st : Nat) (r : LogResp)
    (hfind : db.find? (fun x => x._id == uid) = some u)
    (hok : getUserHandler db uid fromQ toQ limitQ = .ok (st, r)) :
    st = 200 ∧ r._id = u._id ∧ r.username = u.name ∧
    r.count = u.exercises.length ∧
    logPart u.exercises fromQ toQ limitQ = .ok r.log := by
  simp only [getUserHandler, hfind] at hok
  cases hlp : logPart u.exercises fromQ toQ limitQ with
  | error e => rw [hlp] at hok; simp at hok
  | ok lg =>
      rw [hlp] at hok
      simp only [Except.ok.injEq, Prod.mk.injEq] at hok
      obtain ⟨h1, h2⟩ := hok
      subst h2
      exact ⟨h1.symm, rfl, rfl, rfl, rfl⟩

/-- A returned log strictly shorter than the filtered log can only come from
the truncation branch: a present limit parsing to a nonzero number strictly
below the filtered length. -/
theorem logPart_ok_shorter (es : List Exercise) (fromQ toQ : Option Int)
    (limitQ : Option (Option Int)) (lg : List LogEntry)
    (h : logPart es fromQ toQ limitQ = .ok (some lg))
    (hlen : lg.length < (filteredLog es fromQ toQ).length) :
    ∃ l : Int, limitQ = some (some l) ∧ l ≠ 0 ∧
      l < ((filteredLog es fromQ toQ).length : Int) := by
  unfold logPart at h
  by_cases he : es.isEmpty
  · simp [he] at h
  · simp only [he, Bool.false_eq_true, if_false] at h
    rcases limitQ with _ | ol
    · simp only [Except.ok.injEq, Option.some.injEq] at h
      subst h
      exact absurd hlen (lt_irrefl _)
    · rcases ol with _ | l
      · simp only [Except.ok.injEq, Option.some.injEq] at h
        subst h
        exact absurd hlen (lt_irrefl _)
      · by_cases hc : (l ≠ 0 ∧ l < ((filteredLog es fromQ toQ).length : Int))
        · exact ⟨l, rfl, hc.1, hc.2⟩
        · simp only [if_neg hc, Except.ok.injEq, Option.some.injEq] at h
          subst h
          exact absurd hlen (lt_irrefl _)

end Helpers

section Claims

/-- C1: every reachable database state satisfies the count invariant
(`count` = length of `exercises` for every user); a sequence of N
exercise-addition calls that all succeed against one initially-fresh user
leaves it with `count` N and exactly those N exercises in call order; each
single successful addition pushes one exercise and increments `count` by
exactly 1 in the same atomic update; and a failed insert leaves the
database — hence the count — unchanged. -/
theorem c1_count_invariant :
    (∀ db : DB, Reachable db → countInv db) ∧
    (∀ (db : DB) (uid : String) (u : User) (cs : List AddCtx),
      db.find? (fun x => x._id == uid) = some u →
      u.count = 0 → u.exercises = [] →
      (runAdds uid db cs).find? (fun x => x._id == uid) =
        some { u with exercises := cs.map exOf, count := (cs.length : Int) }) ∧
    (∀ (db : DB) (uid : String) (body : AddBody) (now : Int) (eid : String)
       (u : User),
      db.find? (fun x => x._id == uid) = some u →
      (addExerciseHandler db uid body now eid).1.find? (fun x => x._id == uid) =
        some { u with exercises := u.exercises ++ [exOf ⟨body, now, eid⟩],
                      count := u.count + 1 }) ∧
    (∀ (db : DB) (uid : String) (body : AddBody) (now : Int) (eid : String)
       (e : JsError),
      (addExerciseHandler db uid body now eid).2 = .error e →
      (addExerciseHandler db uid body now eid).1 = db) := by
  refine ⟨countInv_reachable, ?_, ?_, ?_⟩
  · intro db uid u cs hfind hc he
    rw [runAdds_sem uid cs db u hfind, hc, he]
    simp
  · intro db uid body now eid u hfind
    exact (findByIdAndUpdate_found uid (pushExercise (exOf ⟨body, now, eid⟩))
      db u rfl hfind).2
  · intro db uid body now eid e herr
    rw [addExerciseHandler_eq] at herr ⊢
    cases hr : (findByIdAndUpdate uid (pushExercise (exOf ⟨body, now, eid⟩)) db).2 with
    | none => exact findByIdAndUpdate_none_eq _ _ _ hr
    | some u => rw [hr] at herr; simp at herr

/-- Witness for C1: the invariant on the (reachable) empty store; one
successful addition against a fresh user yields count 1 and its single
exercise; a successful addition against a stored user pushes one exercise
and bumps count to 4; an addition against an empty store fails and leaves
it unchanged. -/
theorem c1_count_invariant_witness :
    countInv [] ∧
    (runAdds "u2" [emptyUser] [⟨demoBody, dJan10 * msPerDay, "e9"⟩]).find?
        (fun x => x._id == "u2") =
      some { emptyUser with
             exercises := List.map exOf [⟨demoBody, dJan10 * msPerDay, "e9"⟩],
             count := ((List.length [(⟨demoBody, dJan10 * msPerDay, "e9"⟩ : AddCtx)] : Nat) : Int) } ∧
    (addExerciseHandler demoDb "u1" demoBody 0 "e9").1.find? (fun x => x._id == "u1") =
      some { demoUser with
             exercises := demoUser.exercises ++ [exOf ⟨demoBody, 0, "e9"⟩],
             count := demoUser.count + 1 } ∧
    (addExerciseHandler [] "zz" demoBody 0 "e9").1 = [] :=
  ⟨c1_count_invariant.1 [] Reachable.nil,
   c1_count_invariant.2.1 [emptyUser] "u2" emptyUser
     [⟨demoBody, dJan10 * msPerDay, "e9"⟩] rfl rfl rfl,
   c1_count_invariant.2.2.1 demoDb "u1" demoBody 0 "e9" demoUser rfl,
   c1_count_invariant.2.2.2 [] "zz" demoBody 0 "e9" typeErrorNull rfl⟩

/-- C2: user creation is idempotent by name.  If a user with the exact name
exists, the handler answers 200 with that user's `_id`, `username` and
`count` and the stored users are unchanged; if none exists (and the
required name is nonempty), a fresh user with `count` 0 and no exercises is
appended and the answer is 201 with `username` and `_id`; repeating the
same creation request then returns 200 with the same id and name as the
first call. -/
theorem c2_create_idempotent :
    (∀ (db : DB) (n fid : String) (u : User),
      db.find? (fun x => x.name == n) = some u →
      createUserHandler db n fid = (db, .ok (200, .found u._id u.name u.count))) ∧
    (∀ (db : DB) (n fid : String),
      db.find? (fun x => x.name == n) = none → n ≠ "" →
      createUserHandler db n fid =
        (db ++ [{ _id := fid, name := n, count := 0, exercises := [] }],
         .ok (201, .created n fid))) ∧
    (∀ (db : DB) (n fid fid2 : String),
      db.find? (fun x => x.name == n) = none → n ≠ "" →
      createUserHandler (createUserHandler db n fid).1 n fid2 =
        ((createUserHandler db n fid).1, .ok (200, .found fid n 0))) := by
  refine ⟨?_, ?_, ?_⟩
  · intro db n fid u hfind
    simp [createUserHandler, hfind]
  · intro db n fid hfind hn
    simp [createUserHandler, hfind, hn]
  · intro db n fid fid2 hfind hn
    have h1 : (createUserHandler db n fid).1 =
        db ++ [{ _id := fid, name := n, count := 0, exercises := [] }] := by
      simp [createUserHandler, hfind, hn]
    rw [h1]
    simp [createUserHandler, hfind]

/-- Witness for C2: creating "carol" on the empty store persists her with
count 0; the identical second request answers 200 with the same id and
name; creating "alice" on the demo store returns the stored alice. -/
theorem c2_create_idempotent_witness :
    createUserHandler [] "carol" "u5" =
      ([{ _id := "u5", name := "carol", count := 0, exercises := [] }],
       .ok (201, .created "carol" "u5")) ∧
    createUserHandler (createUserHandler [] "carol" "u5").1 "carol" "u6" =
      ((createUserHandler [] "carol" "u5").1, .ok (200, .found "u5" "carol" 0)) ∧
    createUserHandler demoDb "alice" "u7" =
      (demoDb, .ok (200, .found "u1" "alice" 3)) :=
  ⟨c2_create_idempotent.2.1 [] "carol" "u5" rfl (by decide),
   c2_create_idempotent.2.2 [] "carol" "u5" "u6" rfl (by decide),
   c2_create_idempotent.1 demoDb "alice" "u7" demoUser rfl⟩

/-- C3 — evaluation at the failing input.  With no user of id "ghost" in the
store, both POST /api/users/:_id/exercises and GET /api/users/:_id/logs
dereference the `null` result (`user.name` / `user.toObject()`), raising a
`TypeError` that the error middleware maps to HTTP 500, not the 404 the
spec prescribes for a missing user. -/
theorem c3_missing_user_500 :
    (addExerciseHandler demoDb "ghost" demoBody 0 "e9").2 = .error typeErrorNull ∧
    getUserHandler demoDb "ghost" none none none = .error typeErrorNull ∧
    (errorMiddleware typeErrorNull).status = 500 ∧
    (errorMiddleware typeErrorNull).status ≠ 404 :=
  ⟨rfl, rfl, rfl, by decide⟩

/-- C4: for an existing user with a nonempty log and any combination of the
optional `from`/`to` day bounds and a positive `limit` (§4.3's declared
input domain for `limit`), the returned log equals the user's exercises
rendered to `{description, duration, day}`, restricted to the inclusive
`[from, to]` bounds (each bound applied only when present), then truncated
to the first `limit` entries — in insertion order — when the limit is
smaller than the filtered length; on the §8 example the 2024-01-10..31
window keeps only the 2024-01-15 entry and `limit=1` alone keeps only the
2024-01-01 entry. -/
theorem c4_log_filter_and_limit :
    (∀ (db : DB) (uid : String) (u : User) (fromQ toQ : Option Int)
       (lim : Option Nat),
      db.find? (fun x => x._id == uid) = some u →
      u.exercises ≠ [] →
      (∀ l, lim = some l → 0 < l) →
      getUserHandler db uid fromQ toQ (natLimit lim) =
        .ok (200, { _id := u._id, username := u.name,
                    count := u.exercises.length,
                    log := some (specLog u.exercises fromQ toQ lim) })) ∧
    getUserHandler demoDb "u1" (some dJan10) (some dJan31) none =
      .ok (200, { _id := "u1", username := "alice", count := 3,
                  log := some [{ description := "swim", duration := 45,
                                 date := dJan15 }] }) ∧
    getUserHandler demoDb "u1" none none (some (some 1)) =
      .ok (200, { _id := "u1", username := "alice", count := 3,
                  log := some [{ description := "run", duration := 30,
                                 date := dJan01 }] }) := by
  refine ⟨?_, rfl, rfl⟩
  intro db uid u fromQ toQ lim hfind hne hpos
  simp only [getUserHandler, hfind,
    logPart_eq_specLog u.exercises fromQ toQ lim hne hpos]

/-- Witness for C4: on the demo store, bounds 2024-01-10..2024-01-31 with
limit 2 produce exactly the spec-side log. -/
theorem c4_log_filter_and_limit_witness :
    getUserHandler demoDb "u1" (some dJan10) (some dJan31) (natLimit (some 2)) =
      .ok (200, { _id := "u1", username := "alice", count := 3,
                  log := some (specLog demoUser.exercises (some dJan10)
                    (some dJan31) (some 2)) }) :=
  c4_log_filter_and_limit.1 demoDb "u1" demoUser (some dJan10) (some dJan31)
    (some 2) rfl (by decide)
    (by intro l hl; cases hl; decide)

/-- C5: the `count` field of every successful logs response is the user's
total number of stored exercises, whatever `from`, `to` and `limit` are —
never the filtered/limited log length; on the §8 example `limit=1` leaves
`count` at 3 while the log carries a single entry. -/
theorem c5_count_is_unfiltered_total :
    (∀ (db : DB) (uid : String) (u : User) (fromQ toQ : Option Int)
       (limitQ : Option (Option Int)) (st : Nat) (r : LogResp),
      db.find? (fun x => x._id == uid) = some u →
      getUserHandler db uid fromQ toQ limitQ = .ok (st, r) →
      r.count = u.exercises.length) ∧
    (∃ lg : List LogEntry,
      getUserHandler demoDb "u1" none none (some (some 1)) =
        .ok (200, { _id := "u1", username := "alice", count := 3,
                    log := some lg }) ∧
      lg.length = 1) := by
  constructor
  · intro db uid u fromQ toQ limitQ st r hfind hok
    exact (getUserHandler_ok db uid fromQ toQ limitQ u st r hfind hok).2.2.2.1
  · exact ⟨[{ description := "run", duration := 30, date := dJan01 }], rfl, rfl⟩

/-- Witness for C5: with limit 2 the demo store's response carries count 3
(the unfiltered total). -/
theorem c5_count_is_unfiltered_total_witness :
    ({ _id := "u1", username := "alice", count := 3,
       log := some [{ description := "run", duration := 30, date := dJan01 },
                    { description := "swim", duration := 45, date := dJan15 }] } :
      LogResp).count = demoUser.exercises.length :=
  c5_count_is_unfiltered_total.1 demoDb "u1" demoUser none none (some (some 2))
    200 _ rfl rfl

/-- C6: a successful exercise addition answers 201 with exactly
`{username, description, duration, _id, date}` (the five fields of
`ExerciseResp`, `_id` being the user's id) where `date` is the exercise's
date rendered as its calendar day rather than the full timestamp; and when
the body carries no `date`, the stored exercise's date is the server's
`now` and the response date is `now`'s calendar day. -/
theorem c6_add_exercise_response :
    (∀ (db : DB) (uid : String) (body : AddBody) (now : Int) (eid : String)
       (u : User),
      db.find? (fun x => x._id == uid) = some u →
      (addExerciseHandler db uid body now eid).2 =
        .ok (201, { username := u.name, description := body.description,
                    duration := body.duration, _id := u._id,
                    date := dayOf (body.date.getD now) })) ∧
    (∀ (db : DB) (uid : String) (desc : String) (dur now : Int) (eid : String)
       (u : User),
      db.find? (fun x => x._id == uid) = some u →
      (addExerciseHandler db uid ⟨desc, dur, none⟩ now eid).2 =
        .ok (201, { username := u.name, description := desc, duration := dur,
                    _id := u._id, date := dayOf now }) ∧
      (addExerciseHandler db uid ⟨desc, dur, none⟩ now eid).1.find?
          (fun x => x._id == uid) =
        some { u with
               exercises := u.exercises ++
                 [{ _id := eid, description := desc, duration := dur,
                    date := now }],
               count := u.count + 1 }) := by
  have key : ∀ (db : DB) (uid : String) (body : AddBody) (now : Int)
      (eid : String) (u : User),
      db.find? (fun x => x._id == uid) = some u →
      (addExerciseHandler db uid body now eid).2 =
        .ok (201, { username := u.name, description := body.description,
                    duration := body.duration, _id := u._id,
                    date := dayOf (body.date.getD now) }) := by
    intro db uid body now eid u hfind
    have h := (findByIdAndUpdate_found uid (pushExercise (exOf ⟨body, now, eid⟩))
      db u rfl hfind).1
    simp [addExerciseHandler_eq, h, pushExercise]
  refine ⟨key, ?_⟩
  intro db uid desc dur now eid u hfind
  exact ⟨key db uid ⟨desc, dur, none⟩ now eid u hfind,
    (findByIdAndUpdate_found uid (pushExercise (exOf ⟨⟨desc, dur, none⟩, now, eid⟩))
      db u rfl hfind).2⟩

/-- Witness for C6: adding a dateless exercise to the demo store at a
timestamp 500ms into 2024-01-10 responds 201 with date = that calendar
day. -/
theorem c6_add_exercise_response_witness :
    (addExerciseHandler demoDb "u1" demoBody (dJan10 * msPerDay + 500) "e9").2 =
      .ok (201, { username := "alice", description := "row", duration := 15,
                  _id := "u1", date := dJan10 }) :=
  (c6_add_exercise_response.2 demoDb "u1" "row" 15 (dJan10 * msPerDay + 500)
    "e9" demoUser rfl).1

/-- C7: the error middleware maps an error carrying a validation-errors
collection to 400 with the first validation failure's message; any other
error to its attached status when it carries a usable (nonzero) one, else
500, with its message when it carries a usable (nonempty) one, else
"Internal Server Error"; and every response it produces is plain text. -/
theorem c7_error_middleware_mapping :
    (∀ (e : JsError) (m : String) (rest : List String),
      e.errors = some (m :: rest) →
      errorMiddleware e = { status := 400, body := m, ctype := "txt" }) ∧
    (∀ e : JsError, e.errors = none →
      (∀ s : Nat, e.status = some s → s ≠ 0 → (errorMiddleware e).status = s) ∧
      (e.status = none → (errorMiddleware e).status = 500) ∧
      (∀ m : String, e.message = some m → m ≠ "" → (errorMiddleware e).body = m) ∧
      (e.message = none → (errorMiddleware e).body = "Internal Server Error")) ∧
    (∀ e : JsError, (errorMiddleware e).ctype = "txt") := by
  refine ⟨?_, ?_, ?_⟩
  · intro e m rest herr
    simp [errorMiddleware, herr]
  · intro e herr
    refine ⟨?_, ?_, ?_, ?_⟩
    · intro s hs hs0
      simp [errorMiddleware, herr, jsOrNat, hs, hs0]
    · intro hs
      simp [errorMiddleware, herr, jsOrNat, hs]
    · intro m hm hm0
      simp [errorMiddleware, herr, jsOrStr, hm, hm0]
    · intro hm
      simp [errorMiddleware, herr, jsOrStr, hm]
  · intro e
    cases he : e.errors <;> simp [errorMiddleware, he]

/-- Witness for C7: the mongoose name-required validation error maps to 400
with its message; the not-found middleware's `{status: 404, message: "not
found"}` object keeps its status and message; a bare error maps to 500 /
"Internal Server Error", as plain text. -/
theorem c7_error_middleware_mapping_witness :
    errorMiddleware nameRequiredError =
      { status := 400, body := "Path `name` is required.", ctype := "txt" } ∧
    (errorMiddleware { status := some 404, message := some "not found" }).status = 404 ∧
    (errorMiddleware { status := some 404, message := some "not found" }).body = "not found" ∧
    (errorMiddleware {}).status = 500 ∧
    (errorMiddleware {}).body = "Internal Server Error" ∧
    (errorMiddleware {}).ctype = "txt" :=
  ⟨c7_error_middleware_mapping.1 nameRequiredError "Path `name` is required." [] rfl,
   (c7_error_middleware_mapping.2.1 { status := some 404, message := some "not found" }
     rfl).1 404 rfl (by decide),
   ((c7_error_middleware_mapping.2.1 { status := some 404, message := some "not found" }
     rfl).2.2.1) "not found" rfl (by decide),
   (c7_error_middleware_mapping.2.1 {} rfl).2.1 rfl,
   ((c7_error_middleware_mapping.2.1 {} rfl).2.2.2) rfl,
   c7_error_middleware_mapping.2.2 {}⟩

/-- C8: GET /api/users answers 200 with, for each stored user in storage
order, exactly the `{_id, username}` projection (the only fields of
`UserSummary` — no count, no exercises); after creating "alice" then "bob"
on an empty store, the array is exactly their two summaries. -/
theorem c8_list_users_projection :
    (∀ db : DB,
      getAllUsersHandlers db =
        (200, db.map fun u => ({ _id := u._id, username := u.name } : UserSummary))) ∧
    getAllUsersHandlers
        ((createUserHandler ((createUserHandler [] "alice" "u1").1) "bob" "u2").1) =
      (200, [{ _id := "u1", username := "alice" },
             { _id := "u2", username := "bob" }]) :=
  ⟨fun _ => rfl, rfl⟩

/-- C9: for an existing user whose exercises sequence is empty, the logs
response is 200 with `count` 0 and no `log` field at all (`none`, i.e. the
field is omitted from the JSON rather than set to an empty array). -/
theorem c9_empty_log_omitted :
    ∀ (db : DB) (uid : String) (u : User) (fromQ toQ : Option Int)
      (limitQ : Option (Option Int)),
      db.find? (fun x => x._id == uid) = some u → u.exercises = [] →
      getUserHandler db uid fromQ toQ limitQ =
        .ok (200, { _id := u._id, username := u.name, count := 0, log := none }) := by
  intro db uid u fromQ toQ limitQ hfind he
  simp [getUserHandler, logPart, hfind, he]

/-- Witness for C9: the exercise-less demo user answers count 0 and an
omitted log even under filters and a limit. -/
theorem c9_empty_log_omitted_witness :
    getUserHandler [emptyUser] "u2" (some dJan10) (some dJan31) (some (some 1)) =
      .ok (200, { _id := "u2", username := "bob", count := 0, log := none }) :=
  c9_empty_log_omitted [emptyUser] "u2" emptyUser (some dJan10) (some dJan31)
    (some (some 1)) rfl rfl

/-- C10: a `limit` that is present but parses to 0 or to NaN is falsy,
disables the truncation branch, and yields the full filtered log; and a
returned log strictly shorter than the filtered log can only arise from a
limit parsing to a nonzero number strictly smaller than the filtered
length. -/
theorem c10_falsy_limit_no_truncation :
    (∀ (db : DB) (uid : String) (u : User) (fromQ toQ : Option Int),
      db.find? (fun x => x._id == uid) = some u → u.exercises ≠ [] →
      getUserHandler db uid fromQ toQ (some (some 0)) =
        .ok (200, { _id := u._id, username := u.name,
                    count := u.exercises.length,
                    log := some (filteredLog u.exercises fromQ toQ) }) ∧
      getUserHandler db uid fromQ toQ (some none) =
        .ok (200, { _id := u._id, username := u.name,
                    count := u.exercises.length,
                    log := some (filteredLog u.exercises fromQ toQ) })) ∧
    (∀ (db : DB) (uid : String) (u : User) (fromQ toQ : Option Int)
       (limitQ : Option (Option Int)) (st : Nat) (r : LogResp)
       (lg : List LogEntry),
      db.find? (fun x => x._id == uid) = some u →
      getUserHandler db uid fromQ toQ limitQ = .ok (st, r) →
      r.log = some lg →
      lg.length < (filteredLog u.exercises fromQ toQ).length →
      ∃ l : Int, limitQ = some (some l) ∧ l ≠ 0 ∧
        l < ((filteredLog u.exercises fromQ toQ).length : Int)) := by
  constructor
  · intro db uid u fromQ toQ hfind hne
    have hne' : u.exercises.isEmpty = false := by
      cases hu : u.exercises with
      | nil => exact absurd hu hne
      | cons a l => rfl
    constructor
    · simp [getUserHandler, hfind, logPart, hne']
    · simp [getUserHandler, hfind, logPart, hne']
  · intro db uid u fromQ toQ limitQ st r lg hfind hok hlog hlen
    have h := (getUserHandler_ok db uid fromQ toQ limitQ u st r hfind hok).2.2.2.2
    rw [hlog] at h
    exact logPart_ok_shorter u.exercises fromQ toQ limitQ lg h hlen

/-- Witness for C10: on the demo store, limit 0 and a NaN limit both return
the full (unfiltered) three-entry log, and the two-entry log returned for
limit 2 certifies a truncation that only a nonzero limit below the filtered
length can produce. -/
theorem c10_falsy_limit_no_truncation_witness :
    getUserHandler demoDb "u1" none none (some (some 0)) =
      .ok (200, { _id := "u1", username := "alice", count := 3,
                  log := some (filteredLog demoUser.exercises none none) }) ∧
    getUserHandler demoDb "u1" none none (some none) =
      .ok (200, { _id := "u1", username := "alice", count := 3,
                  log := some (filteredLog demoUser.exercises none none) }) ∧
    ∃ l : Int, (some (some 2) : Option (Option Int)) = some (some l) ∧ l ≠ 0 ∧
      l < ((filteredLog demoUser.exercises none none).length : Int) :=
  ⟨(c10_falsy_limit_no_truncation.1 demoDb "u1" demoUser none none rfl
      (by decide)).1,
   (c10_falsy_limit_no_truncation.1 demoDb "u1" demoUser none none rfl
      (by decide)).2,
   c10_falsy_limit_no_truncation.2 demoDb "u1" demoUser none none
     (some (some 2)) 200
     { _id := "u1", username := "alice", count := 3,
       log := some [{ description := "run", duration := 30, date := dJan01 },
                    { description := "swim", duration := 45, date := dJan15 }] }
     [{ description := "run", duration := 30, date := dJan01 },
      { description := "swim", duration := 45, date := dJan15 }]
     rfl rfl rfl (by decide)⟩

end Claims

end ExTracker
